import Mathlib

/-!
Shallow embedding of `runtime/src/main/cpp/CyclicCollector.cpp` (the
incremental cyclic garbage collector for atomic reference cells), together
with theorems settling the specification claims about it.

Modelling conventions:
* `ObjHeader*` pointers are modelled as natural numbers (`Cell`), worker
  identities (`void*`) as `Worker`, slot addresses (`ObjHeader**`) as `Slot`.
* `KStdUnorderedMap<ObjHeader*, int> rootsRefCounts_` is modelled as an
  association list with unique keys (`mapSet` replaces an existing binding,
  `operator[]` default-constructs the value `0` on a missing key).
* `KStdUnorderedSet<void*> alreadySeenWorkers_` is a `Finset Worker`;
  `KStdUnorderedSet<ObjHeader*> visited` is a `List Cell` with set-insert.
* `int32_t` arithmetic wraps; `toInt32` reduces an integer into
  `[-2^31, 2^31)` the way two's-complement arithmetic does.
* The host-runtime collaborators (`GC_StackWalk`, `GC_AtomicRootsWalk`,
  type descriptors, reference counts) are inputs, bundled in `Env`:
  `refsOf c` lists the non-null objects referenced from `c`'s slots,
  `slotsOf c` lists all of `c`'s reference-slot addresses,
  `refCount c` is `c->container()->refCount()`,
  `stackRefs w` lists the objects `GC_StackWalk` reports on worker `w`,
  `rootsWalk` is the sequence `GC_AtomicRootsWalk` feeds to the callback.
* The collector loop body is sequentialized: each public entry point is a
  state transformer, the monotonic clock is an explicit argument `now`.
-/

namespace CyclicCollector

abbrev Cell := Nat
abbrev Worker := Nat
abbrev Slot := Nat

/-- Two's-complement reduction into the `int32_t` range `[-2^31, 2^31)`;
models wrap-around of `currentTick_`, `lastTick_` and their difference. -/
def toInt32 (x : Int) : Int :=
  (x + 2147483648) % 4294967296 - 2147483648

/-- Lookup in the `rootsRefCounts_` map (`find` on the unordered map). -/
def mapGet : List (Cell × Int) → Cell → Option Int
  | [], _ => none
  | p :: rest, k => if p.1 = k then some p.2 else mapGet rest k

/-- Lookup with the `int` default `0`, as `operator[]` value-initializes. -/
def mapGetD (m : List (Cell × Int)) (k : Cell) : Int :=
  (mapGet m k).getD 0

/-- `m[k] = v`: replace the binding of `k`, or append a fresh one. -/
def mapSet : List (Cell × Int) → Cell → Int → List (Cell × Int)
  | [], k, v => [(k, v)]
  | p :: rest, k, v => if p.1 = k then (k, v) :: rest else p :: mapSet rest k v

/-- `m.erase(k)`: drop the binding of `k` (a no-op when `k` is unbound). -/
def mapErase : List (Cell × Int) → Cell → List (Cell × Int)
  | [], _ => []
  | p :: rest, k => if p.1 = k then mapErase rest k else p :: mapErase rest k

/-- `m[k] += d`, value-initializing a missing entry to `0` first. -/
def mapAdd (m : List (Cell × Int)) (k : Cell) (d : Int) : List (Cell × Int) :=
  mapSet m k (mapGetD m k + d)

/-- The mutable fields of the `CyclicCollector` singleton.  The mutex,
condition variable and thread handle are not part of the sequential model;
`konanConstructInstance` zero-initializes every field. -/
structure CState where
  currentAliveWorkers : Int
  shallCollectGarbage : Bool
  shallRunCollector : Bool
  terminateCollector : Bool
  firstWorker : Option Worker
  rootsRefCounts : List (Cell × Int)
  alreadySeenWorkers : Finset Worker
  rootset : List Cell
  toRelease : List Slot
  gcRunning : Int
  currentTick : Int
  lastTick : Int
  lastTimestampUs : Int
  deriving DecidableEq

/-- The zero-initialized state built by `cyclicInit`. -/
def initState : CState :=
  { currentAliveWorkers := 0
    shallCollectGarbage := false
    shallRunCollector := false
    terminateCollector := false
    firstWorker := none
    rootsRefCounts := []
    alreadySeenWorkers := ∅
    rootset := []
    toRelease := []
    gcRunning := 0
    currentTick := 0
    lastTick := 0
    lastTimestampUs := 0 }

/-- Host-runtime collaborators consumed by the collector (stack walker,
atomic-roots walker, type-descriptor field enumeration, refcounts). -/
structure Env where
  atomic : Cell → Bool
  refsOf : Cell → List Cell
  slotsOf : Cell → List Slot
  refCount : Cell → Int
  stackRefs : Worker → List Cell
  rootsWalk : List Cell

/-- `CyclicCollector::addWorker`: record the first worker, bump the count. -/
def addWorker (s : CState) (w : Worker) : CState :=
  { s with
    firstWorker := match s.firstWorker with
      | none => some w
      | some x => some x
    currentAliveWorkers := s.currentAliveWorkers + 1 }

/-- `CyclicCollector::addRoot` (public `cyclicAddAtomicRoot`): bind the
root to inner count `0` in `rootsRefCounts_`, overwriting any binding. -/
def addRoot (s : CState) (obj : Cell) : CState :=
  { s with rootsRefCounts := mapSet s.rootsRefCounts obj 0 }

/-- `CyclicCollector::removeRoot` (public `cyclicRemoveAtomicRoot`). -/
def removeRoot (s : CState) (obj : Cell) : CState :=
  { s with rootsRefCounts := mapErase s.rootsRefCounts obj }

/-- `CyclicCollector::scheduleGarbageCollect`. -/
def scheduleGarbageCollect (s : CState) : CState :=
  { s with shallCollectGarbage := true }

/-- `CyclicCollector::checkIfShallCollect`, with the monotonic clock value
`konan::getTimeMicros()` passed in as `now`.  The tick is incremented on
every call; the heuristic fires when the wrapped 32-bit delta is `> 10` or
negative and more than `10000` microseconds have passed. -/
def checkIfShallCollect (now : Int) (s : CState) : Bool × CState :=
  let tick := toInt32 (s.currentTick + 1)
  let s1 := { s with currentTick := tick }
  if s1.shallCollectGarbage then (true, s1)
  else
    let delta := toInt32 (tick - s1.lastTick)
    if delta > 10 ∨ delta < 0 then
      if now - s1.lastTimestampUs > 10000 then
        (true, { s1 with
                  lastTick := s1.currentTick
                  lastTimestampUs := now
                  shallCollectGarbage := true })
      else (false, s1)
    else (false, s1)

/-- `CyclicCollector::countLocked`: adjust the inner count of an atomic
object by `delta` (`operator[]` inserts `0` for an unseen object first). -/
def countLocked (atomic : Cell → Bool) (s : CState) (obj : Cell) (delta : Int) :
    CState :=
  if atomic obj then
    { s with rootsRefCounts := mapAdd s.rootsRefCounts obj delta }
  else s

/-- The `GC_StackWalk(stackCounterCallback, this)` pass of a rendezvous:
decrement the inner count of every atomic object on worker `w`'s stack. -/
def stackWalkDec (env : Env) (s : CState) (w : Worker) : CState :=
  (env.stackRefs w).foldl (fun st obj => countLocked env.atomic st obj (-1)) s

/-- The `toRelease_` drain at the top of `rendezvouzLocked` (lines
274-279): when the queue is non-empty, zero every queued slot through
`ZeroHeapRef` (a heap effect outside this state) and clear the queue. -/
def drainReleaseQueue (s : CState) : CState :=
  if s.toRelease.length > 0 then { s with toRelease := [] } else s

/-- `CyclicCollector::rendezvouzLocked`: drain `toRelease_`, then (unless
this worker already contributed) subtract its stack references, record it,
and signal the collector when every alive worker has contributed. -/
def rendezvouzLocked (env : Env) (s : CState) (w : Worker) : CState :=
  let s1 := drainReleaseQueue s
  if w ∈ s1.alreadySeenWorkers then s1
  else
    let s2 := stackWalkDec env s1 w
    let s3 := { s2 with alreadySeenWorkers := insert w s2.alreadySeenWorkers }
    if (s3.alreadySeenWorkers.card : Int) = s3.currentAliveWorkers then
      { s3 with shallRunCollector := true }
    else s3

/-- `CyclicCollector::rendezvouz`: skip while the collector is marking,
consult the scheduler (which increments the tick), then contribute. -/
def rendezvouz (env : Env) (now : Int) (s : CState) (w : Worker) : CState :=
  if s.gcRunning ≠ 0 then s
  else
    let p := checkIfShallCollect now s
    if p.1 then rendezvouzLocked env p.2 w else p.2

/-- `CyclicCollector::removeWorker`: force a final collection on behalf of
the departing worker, contribute for it, then drop the alive count. -/
def removeWorker (env : Env) (s : CState) (w : Worker) : CState :=
  let s1 := { s with shallCollectGarbage := true }
  let s2 := rendezvouzLocked env s1 w
  { s2 with currentAliveWorkers := s2.currentAliveWorkers - 1 }

/-- The inner `while (toVisit.size() > 0)` loop of `gcProcessor` (lines
173-186): pop the front object, tally it when it is atomic, insert it into
`visited`, then push its non-null references that are not yet visited.
`fuel` bounds the number of iterations; the run yields `none` if the loop
has not finished within `fuel` steps. -/
def markVisit (refs : Cell → List Cell) (atomic : Cell → Bool) :
    Nat → List Cell → List Cell → List (Cell × Int) →
    Option (List Cell × List (Cell × Int))
  | _, [], visited, counts => some (visited, counts)
  | 0, _ :: _, _, _ => none
  | fuel + 1, obj :: rest, visited, counts =>
    let counts1 := if atomic obj then mapAdd counts obj 1 else counts
    let visited1 := visited.insert obj
    let pushes := (refs obj).filter (fun r => decide (r ∉ visited1))
    markVisit refs atomic fuel (rest ++ pushes) visited1 counts1

/-- The outer `for (auto* root: rootset_)` loop of `gcProcessor` (lines
166-187): push the root's non-null, unvisited references, then run the
inner loop to exhaustion; `visited` persists across roots. -/
def markRoots (refs : Cell → List Cell) (atomic : Cell → Bool) (fuel : Nat) :
    List Cell → List Cell → List (Cell × Int) →
    Option (List Cell × List (Cell × Int))
  | [], visited, counts => some (visited, counts)
  | root :: roots, visited, counts =>
    let pushes := (refs root).filter (fun r => decide (r ∉ visited))
    match markVisit refs atomic fuel pushes visited counts with
    | none => none
    | some (v1, c1) => markRoots refs atomic fuel roots v1 c1

/-- The decision pass of `gcProcessor` (lines 188-198): for every entry of
`rootsRefCounts_` whose inner count equals the container's refcount, append
every outgoing reference-slot address of that cell to `toRelease_`. -/
def gcDecide (refCount : Cell → Int) (slots : Cell → List Slot) :
    List (Cell × Int) → List Slot → List Slot
  | [], toRelease => toRelease
  | p :: rest, toRelease =>
    gcDecide refCount slots rest
      (if p.2 = refCount p.1 then toRelease ++ slots p.1 else toRelease)

/-- One collection cycle of `gcProcessor` (lines 162-205), entered when
`shallRunCollector_` is set: clear the contributed-workers set, snapshot
the atomic rootset via `GC_AtomicRootsWalk`, run the mark walk over the
prepopulated `rootsRefCounts_`, apply the decision rule, then clear the
counts, the rootset and the visited set.  Yields `none` when the mark walk
does not finish within `fuel` steps. -/
def gcProcessorCycle (env : Env) (fuel : Nat) (s : CState) : Option CState :=
  if s.shallRunCollector then
    let s1 := { s with gcRunning := 1, alreadySeenWorkers := ∅ }
    let roots := s1.rootset ++ env.rootsWalk
    match markRoots env.refsOf env.atomic fuel roots [] s1.rootsRefCounts with
    | none => none
    | some (_, counts) =>
      some { s1 with
              toRelease := gcDecide env.refCount env.slotsOf counts s1.toRelease
              rootsRefCounts := []
              rootset := []
              gcRunning := 0
              shallRunCollector := false }
  else some s

/-- `cyclicInit`: `RuntimeAssert(cyclicCollector == nullptr)` then construct
the singleton.  The global `cyclicCollector` pointer is the `Option CState`;
a failed `RuntimeAssert` is an `Except.error`. -/
def cyclicInit : Option CState → Except String (Option CState)
  | some _ => Except.error "Must be not yet inited"
  | none => Except.ok (some initState)

/-- `cyclicDeinit`: `RuntimeAssert(cyclicCollector != nullptr)` then destroy
the singleton. -/
def cyclicDeinit : Option CState → Except String (Option CState)
  | none => Except.error "Must be inited"
  | some _ => Except.ok none

/-- `cyclicAddAtomicRoot` as an error-aware wrapper: the body of
`CyclicCollector::addRoot` (lines 230-233) contains no `RuntimeAssert`, so
the wrapper never fails. -/
def cyclicAddAtomicRoot (s : CState) (obj : Cell) : Except String CState :=
  Except.ok (addRoot s obj)

/-- `cyclicRemoveAtomicRoot` as an error-aware wrapper: the body of
`CyclicCollector::removeRoot` (lines 235-238) contains no `RuntimeAssert`. -/
def cyclicRemoveAtomicRoot (s : CState) (obj : Cell) : Except String CState :=
  Except.ok (removeRoot s obj)

/-- `cyclicRendezvouz` as an error-aware wrapper: neither
`CyclicCollector::rendezvouz` nor `rendezvouzLocked` contains a
`RuntimeAssert`, so a rendezvous by a never-registered worker is accepted. -/
def cyclicRendezvouz (env : Env) (now : Int) (s : CState) (w : Worker) :
    Except String CState :=
  Except.ok (rendezvouz env now s w)

/-- Public operations of the collector, for reasoning about sequences of
calls; a `rendezvouz` carries the clock value observed during the call. -/
inductive COp where
  | addWorker (w : Worker)
  | removeWorker (w : Worker)
  | rendezvouz (now : Int) (w : Worker)
  | scheduleGC
  | addRoot (c : Cell)
  | removeRoot (c : Cell)
  | collect

/-- One step of a well-formed trace, tracking alongside the collector state
the ghost set `R` of currently registered workers.  A step is rejected
(`none`) when it falls outside the discipline under which invariant I3 can
hold: an `addWorker` of an already-registered identity, a `rendezvouz` by
an unregistered worker, any `removeWorker`, or a mark walk that runs out of
fuel. -/
def applyGood (env : Env) (fuel : Nat) :
    CState × Finset Worker → COp → Option (CState × Finset Worker)
  | (s, R), COp.addWorker w =>
    if w ∈ R then none else some (addWorker s w, insert w R)
  | (_, _), COp.removeWorker _ => none
  | (s, R), COp.rendezvouz now w =>
    if w ∈ R then some (rendezvouz env now s w, R) else none
  | (s, R), COp.scheduleGC => some (scheduleGarbageCollect s, R)
  | (s, R), COp.addRoot c => some (addRoot s c, R)
  | (s, R), COp.removeRoot c => some (removeRoot s c, R)
  | (s, R), COp.collect =>
    match gcProcessorCycle env fuel s with
    | some s1 => some (s1, R)
    | none => none

/-- Run a well-formed trace from a starting state. -/
def runGood (env : Env) (fuel : Nat) :
    CState × Finset Worker → List COp → Option (CState × Finset Worker)
  | st, [] => some st
  | st, op :: ops =>
    match applyGood env fuel st op with
    | some st1 => runGood env fuel st1 ops
    | none => none

/-- Number of reference edges into `c` whose source is among `objs`. -/
def edgesInto (refs : Cell → List Cell) (objs : List Cell) (c : Cell) : Nat :=
  (objs.map (fun o => (refs o).count c)).sum

/-- A trivial environment: no references, no atomic flags, empty stacks. -/
def env0 : Env :=
  { atomic := fun _ => false
    refsOf := fun _ => []
    slotsOf := fun _ => []
    refCount := fun _ => 0
    stackRefs := fun _ => []
    rootsWalk := [] }

/-- Concrete object graph with an edge `0 → 1` and a self-loop `1 → 1`:
two reference edges point at cell `1`. -/
def refs2 : Cell → List Cell :=
  fun c => if c = 0 then [1] else if c = 1 then [1] else []

/-- Cells `0` and `1` of the concrete graph are atomic cells. -/
def atomic2 : Cell → Bool := fun c => c = 0 || c = 1

/-- Reference function with no outgoing edges (mark-walk witness). -/
def refsW2 : Cell → List Cell := fun _ => []

/-- Atomic-flag function marking every cell atomic (mark-walk witness). -/
def atomicW2 : Cell → Bool := fun _ => true

/-- Scheduler state whose next tick delta is `12`: eleven prior ticks, a
last-collection tick of `0`. -/
def sC3a : CState := { initState with currentTick := 11 }

/-- Scheduler state just after tick wrap-around: the last-collection tick
sits at `INT32_MAX` while the current tick has wrapped to a small value. -/
def sC3b : CState :=
  { initState with currentTick := 5, lastTick := 2147483647 }

/-- Scheduler state with a large positive tick delta. -/
def sC3w : CState := { initState with currentTick := 100 }

/-- Wrap-around witness state: delta of the next tick is negative. -/
def sC10w : CState :=
  { initState with currentTick := 5, lastTick := 2147483647 }

/-- A state with the collect-requested flag already set and five alive
workers, so a rendezvous contributes without starting a collection. -/
def sC7w : CState :=
  { initState with shallCollectGarbage := true, currentAliveWorkers := 5 }

/-- A state in which the collector has been signalled to run a cycle. -/
def s4w : CState := { initState with shallRunCollector := true }

/-- The collector state after `addWorker 3` from the initial state. -/
def s5w : CState :=
  { initState with firstWorker := some 3, currentAliveWorkers := 1 }

/-- A state with one alive worker that has not yet contributed. -/
def s6w : CState := { initState with currentAliveWorkers := 1 }

/-- A reachable registry state in which root `0` is registered. -/
def s8 : CState := addRoot initState 0

/-- Invariant I3 as a predicate over collector state plus the ghost set of
registered workers: the contributed set is inside the registered set and
the alive counter agrees with the registered cardinality. -/
def WInv (st : CState × Finset Worker) : Prop :=
  st.1.alreadySeenWorkers ⊆ st.2
  ∧ st.1.currentAliveWorkers = (st.2.card : Int)

theorem mapGet_set_self (m : List (Cell × Int)) (k : Cell) (v : Int) :
    mapGet (mapSet m k v) k = some v := by
  induction m with
  | nil => simp [mapSet, mapGet]
  | cons p rest ih =>
    by_cases h : p.1 = k
    · simp [mapSet, h, mapGet]
    · simp [mapSet, h, mapGet, ih]

theorem mapGet_set_ne (m : List (Cell × Int)) {k c : Cell} (v : Int)
    (h : c ≠ k) : mapGet (mapSet m k v) c = mapGet m c := by
  induction m with
  | nil => simp [mapSet, mapGet, Ne.symm h]
  | cons p rest ih =>
    by_cases hp : p.1 = k
    · subst hp
      simp [mapSet, mapGet, Ne.symm h]
    · by_cases hc : p.1 = c
      · simp [mapSet, mapGet, hp, hc, h]
      · simp [mapSet, mapGet, hp, hc, h, ih]

theorem mapGetD_add_self (m : List (Cell × Int)) (k : Cell) (d : Int) :
    mapGetD (mapAdd m k d) k = mapGetD m k + d := by
  simp [mapAdd, mapGetD, mapGet_set_self]

theorem mapGetD_add_ne (m : List (Cell × Int)) {k c : Cell} (d : Int)
    (h : c ≠ k) : mapGetD (mapAdd m k d) c = mapGetD m c := by
  simp [mapAdd, mapGetD, mapGet_set_ne m _ h]

theorem mapGet_none_keys {m : List (Cell × Int)} {x : Cell}
    (h : mapGet m x = none) : ∀ p ∈ m, p.1 ≠ x := by
  induction m with
  | nil => simp
  | cons p rest ih =>
    intro q hq
    by_cases hp : p.1 = x
    · simp [mapGet, hp] at h
    · simp [mapGet, hp] at h
      rcases List.mem_cons.mp hq with rfl | hq'
      · exact hp
      · exact ih h q hq'

theorem mapErase_of_none {m : List (Cell × Int)} {x : Cell}
    (h : mapGet m x = none) : mapErase m x = m := by
  induction m with
  | nil => rfl
  | cons p rest ih =>
    by_cases hp : p.1 = x
    · simp [mapGet, hp] at h
    · simp [mapGet, hp] at h
      simp [mapErase, hp, ih h]

theorem mapErase_set_of_none {m : List (Cell × Int)} {x : Cell} (v : Int)
    (h : mapGet m x = none) : mapErase (mapSet m x v) x = m := by
  induction m with
  | nil => simp [mapSet, mapErase]
  | cons p rest ih =>
    by_cases hp : p.1 = x
    · simp [mapGet, hp] at h
    · simp [mapGet, hp] at h
      simp [mapSet, hp, mapErase, ih h]

theorem countFold_fields (a : Cell → Bool) (d : Int) :
    ∀ (l : List Cell) (s : CState),
      ∃ m, l.foldl (fun st obj => countLocked a st obj d) s
        = { s with rootsRefCounts := m } := by
  intro l
  induction l with
  | nil => exact fun s => ⟨s.rootsRefCounts, rfl⟩
  | cons obj rest ih =>
    intro s
    simp only [List.foldl_cons]
    by_cases h : a obj
    · obtain ⟨m, hm⟩ := ih (countLocked a s obj d)
      refine ⟨m, ?_⟩
      rw [hm]
      simp [countLocked, h]
    · rw [show countLocked a s obj d = s by simp [countLocked, h]]
      exact ih s

theorem stackWalkDec_eq (env : Env) (w : Worker) (s : CState) :
    ∃ m, stackWalkDec env s w = { s with rootsRefCounts := m } :=
  countFold_fields env.atomic (-1) (env.stackRefs w) s

theorem setToRelease_self {s : CState} (h : s.toRelease = []) :
    { s with toRelease := ([] : List Slot) } = s := by
  cases s
  simp_all

theorem drainReleaseQueue_eq (s : CState) :
    drainReleaseQueue s = { s with toRelease := ([] : List Slot) } := by
  unfold drainReleaseQueue
  by_cases h : s.toRelease.length > 0
  · rw [if_pos h]
  · rw [if_neg h]
    exact (setToRelease_self
      (List.length_eq_zero.mp (Nat.eq_zero_of_le_zero (Nat.not_lt.mp h)))).symm

theorem rendezvouzLocked_eq (env : Env) (s : CState) (w : Worker) :
    ∃ m b, rendezvouzLocked env s w =
      { s with rootsRefCounts := m
               toRelease := ([] : List Slot)
               alreadySeenWorkers := insert w s.alreadySeenWorkers
               shallRunCollector := b } := by
  obtain ⟨m, hm⟩ := stackWalkDec_eq env w { s with toRelease := ([] : List Slot) }
  by_cases hw : w ∈ s.alreadySeenWorkers
  · refine ⟨s.rootsRefCounts, s.shallRunCollector, ?_⟩
    simp only [rendezvouzLocked]
    rw [drainReleaseQueue_eq]
    dsimp only
    rw [if_pos hw, Finset.insert_eq_self.mpr hw]
  · by_cases hc : ((insert w s.alreadySeenWorkers).card : Int)
        = s.currentAliveWorkers
    · refine ⟨m, true, ?_⟩
      simp only [rendezvouzLocked]
      rw [drainReleaseQueue_eq]
      dsimp only
      rw [if_neg hw, hm]
      dsimp only
      rw [if_pos hc]
    · refine ⟨m, s.shallRunCollector, ?_⟩
      simp only [rendezvouzLocked]
      rw [drainReleaseQueue_eq]
      dsimp only
      rw [if_neg hw, hm]
      dsimp only
      rw [if_neg hc]

theorem rendezvouzLocked_noop (env : Env) {s : CState} (w : Worker)
    (h0 : s.toRelease = []) (hw : w ∈ s.alreadySeenWorkers) :
    rendezvouzLocked env s w = s := by
  simp only [rendezvouzLocked]
  rw [drainReleaseQueue_eq, setToRelease_self h0]
  rw [if_pos hw]

theorem rendezvouzLocked_shallRun (env : Env) {s : CState} {w : Worker}
    (h1 : w ∉ s.alreadySeenWorkers)
    (h2 : (s.alreadySeenWorkers.card : Int) + 1 = s.currentAliveWorkers) :
    (rendezvouzLocked env s w).shallRunCollector = true := by
  obtain ⟨m, hm⟩ := stackWalkDec_eq env w { s with toRelease := ([] : List Slot) }
  have hc : ((insert w s.alreadySeenWorkers).card : Int)
      = s.currentAliveWorkers := by
    rw [Finset.card_insert_of_not_mem h1]
    push_cast
    exact h2
  simp only [rendezvouzLocked]
  rw [drainReleaseQueue_eq]
  dsimp only
  rw [if_neg h1, hm]
  dsimp only
  rw [if_pos hc]

theorem checkIfShallCollect_of_flag (now : Int) {s : CState}
    (h : s.shallCollectGarbage = true) :
    checkIfShallCollect now s
      = (true, { s with currentTick := toInt32 (s.currentTick + 1) }) := by
  unfold checkIfShallCollect
  simp [h]

theorem checkIfShallCollect_eq (now : Int) (s : CState) :
    ∃ b t u, (checkIfShallCollect now s).2 =
      { s with currentTick := toInt32 (s.currentTick + 1)
               lastTick := t
               lastTimestampUs := u
               shallCollectGarbage := b }
      ∧ ((checkIfShallCollect now s).1 = true → b = true) := by
  by_cases h : s.shallCollectGarbage
  · refine ⟨s.shallCollectGarbage, s.lastTick, s.lastTimestampUs, ?_, fun _ => h⟩
    unfold checkIfShallCollect
    simp [h]
  · by_cases h1 : toInt32 (toInt32 (s.currentTick + 1) - s.lastTick) > 10
        ∨ toInt32 (toInt32 (s.currentTick + 1) - s.lastTick) < 0
    · by_cases h2 : now - s.lastTimestampUs > 10000
      · refine ⟨true, toInt32 (s.currentTick + 1), now, ?_, fun _ => rfl⟩
        unfold checkIfShallCollect
        simp [h, h1, h2]
      · refine ⟨s.shallCollectGarbage, s.lastTick, s.lastTimestampUs, ?_, ?_⟩
        · unfold checkIfShallCollect
          simp [h, h1, h2]
        · unfold checkIfShallCollect
          simp [h, h1, h2]
    · refine ⟨s.shallCollectGarbage, s.lastTick, s.lastTimestampUs, ?_, ?_⟩
      · unfold checkIfShallCollect
        simp [h, h1]
      · unfold checkIfShallCollect
        simp [h, h1]

theorem rendezvouz_seen_alive (env : Env) (now : Int) (s : CState)
    (w : Worker) :
    (rendezvouz env now s w).alreadySeenWorkers ⊆ insert w s.alreadySeenWorkers
    ∧ (rendezvouz env now s w).currentAliveWorkers = s.currentAliveWorkers := by
  obtain ⟨b, t, u, hck, _⟩ := checkIfShallCollect_eq now s
  unfold rendezvouz
  by_cases hg : s.gcRunning ≠ 0
  · rw [if_pos hg]
    exact ⟨Finset.subset_insert _ _, rfl⟩
  · rw [if_neg hg]
    by_cases hp : (checkIfShallCollect now s).1
    · simp only [hp, if_true]
      obtain ⟨m, b2, hlock⟩ :=
        rendezvouzLocked_eq env (checkIfShallCollect now s).2 w
      rw [hlock, hck]
      exact ⟨Finset.Subset.refl _, rfl⟩
    · simp only [hp, if_false]
      rw [hck]
      exact ⟨Finset.subset_insert _ _, rfl⟩

theorem checkIfShallCollect_heuristic_core (now : Int) (s : CState)
    (h : s.shallCollectGarbage = false) :
    ((checkIfShallCollect now s).1 = true ↔
      ((toInt32 (toInt32 (s.currentTick + 1) - s.lastTick) > 10
          ∨ toInt32 (toInt32 (s.currentTick + 1) - s.lastTick) < 0)
        ∧ now - s.lastTimestampUs > 10000))
    ∧ (checkIfShallCollect now s).2.shallCollectGarbage
        = (checkIfShallCollect now s).1 := by
  unfold checkIfShallCollect
  by_cases h1 : toInt32 (toInt32 (s.currentTick + 1) - s.lastTick) > 10
      ∨ toInt32 (toInt32 (s.currentTick + 1) - s.lastTick) < 0
  · by_cases h2 : now - s.lastTimestampUs > 10000
    · simp [h, h1, h2]
    · simp [h, h1, h2]
  · simp [h, h1]

theorem gcProcessorCycle_clears (env : Env) (fuel : Nat) {t t1 : CState}
    (h1 : t.shallRunCollector = true)
    (h : gcProcessorCycle env fuel t = some t1) :
    t1.alreadySeenWorkers = ∅ ∧ t1.rootsRefCounts = []
    ∧ t1.currentAliveWorkers = t.currentAliveWorkers := by
  unfold gcProcessorCycle at h
  rw [if_pos h1] at h
  dsimp only at h
  split at h
  · cases h
  · injection h with h2
    subst h2
    exact ⟨rfl, rfl, rfl⟩

theorem gcProcessorCycle_not_fired (env : Env) (fuel : Nat) {t : CState}
    (h1 : t.shallRunCollector = false) :
    gcProcessorCycle env fuel t = some t := by
  unfold gcProcessorCycle
  rw [if_neg (by simp [h1])]

theorem gcProcessorCycle_seen_alive (env : Env) (fuel : Nat) {t t1 : CState}
    (h : gcProcessorCycle env fuel t = some t1) :
    (t1.alreadySeenWorkers = t.alreadySeenWorkers
      ∨ t1.alreadySeenWorkers = ∅)
    ∧ t1.currentAliveWorkers = t.currentAliveWorkers := by
  by_cases h1 : t.shallRunCollector
  · have hcl := gcProcessorCycle_clears env fuel h1 h
    exact ⟨Or.inr hcl.1, hcl.2.2⟩
  · have h1f : t.shallRunCollector = false := by simpa using h1
    rw [gcProcessorCycle_not_fired env fuel h1f] at h
    injection h with h2
    subst h2
    exact ⟨Or.inl rfl, rfl⟩

theorem applyGood_winv (env : Env) (fuel : Nat)
    {st st1 : CState × Finset Worker} {op : COp}
    (hinv : WInv st) (h : applyGood env fuel st op = some st1) :
    WInv st1 := by
  obtain ⟨s, R⟩ := st
  obtain ⟨hsub, hcard⟩ := hinv
  cases op with
  | addWorker w =>
    simp only [applyGood] at h
    by_cases hw : w ∈ R
    · rw [if_pos hw] at h
      cases h
    · rw [if_neg hw] at h
      injection h with h2
      subst h2
      refine ⟨hsub.trans (Finset.subset_insert _ _), ?_⟩
      show s.currentAliveWorkers + 1 = ((insert w R).card : Int)
      rw [Finset.card_insert_of_not_mem hw]
      push_cast
      rw [hcard]
  | removeWorker w => simp [applyGood] at h
  | rendezvouz now w =>
    simp only [applyGood] at h
    by_cases hw : w ∈ R
    · rw [if_pos hw] at h
      injection h with h2
      subst h2
      obtain ⟨hsub2, halive⟩ := rendezvouz_seen_alive env now s w
      refine ⟨hsub2.trans (Finset.insert_subset_iff.mpr ⟨hw, hsub⟩), ?_⟩
      show (rendezvouz env now s w).currentAliveWorkers = _
      rw [halive]
      exact hcard
    · rw [if_neg hw] at h
      cases h
  | scheduleGC =>
    simp only [applyGood] at h
    injection h with h2
    subst h2
    exact ⟨hsub, hcard⟩
  | addRoot c =>
    simp only [applyGood] at h
    injection h with h2
    subst h2
    exact ⟨hsub, hcard⟩
  | removeRoot c =>
    simp only [applyGood] at h
    injection h with h2
    subst h2
    exact ⟨hsub, hcard⟩
  | collect =>
    simp only [applyGood] at h
    split at h
    · rename_i s2 heq
      injection h with h2
      subst h2
      obtain ⟨hseen, halive⟩ := gcProcessorCycle_seen_alive env fuel heq
      constructor
      · show s2.alreadySeenWorkers ⊆ R
        rcases hseen with he | he
        · rw [he]; exact hsub
        · rw [he]; exact Finset.empty_subset _
      · show s2.currentAliveWorkers = _
        rw [halive]
        exact hcard
    · cases h

theorem runGood_winv (env : Env) (fuel : Nat) :
    ∀ (ops : List COp) (st st1 : CState × Finset Worker),
      WInv st → runGood env fuel st ops = some st1 → WInv st1 := by
  intro ops
  induction ops with
  | nil =>
    intro st st1 hinv h
    simp only [runGood] at h
    injection h with h2
    subst h2
    exact hinv
  | cons op ops ih =>
    intro st st1 hinv h
    simp only [runGood] at h
    split at h
    · rename_i st2 heq
      exact ih st2 st1 (applyGood_winv env fuel hinv heq) h
    · cases h

theorem mem_gcDecide (refCount : Cell → Int) (slots : Cell → List Slot) :
    ∀ (counts : List (Cell × Int)) (toRelease : List Slot) (sl : Slot),
      sl ∈ gcDecide refCount slots counts toRelease ↔
        sl ∈ toRelease
        ∨ ∃ p ∈ counts, p.2 = refCount p.1 ∧ sl ∈ slots p.1 := by
  intro counts
  induction counts with
  | nil =>
    intro tr sl
    simp [gcDecide]
  | cons p rest ih =>
    intro tr sl
    simp only [gcDecide]
    rw [ih]
    by_cases h : p.2 = refCount p.1
    · rw [if_pos h]
      simp only [List.mem_append]
      constructor
      · rintro ((h1 | h1) | ⟨q, hq, hq2, hq3⟩)
        · exact Or.inl h1
        · exact Or.inr ⟨p, List.mem_cons_self p rest, h, h1⟩
        · exact Or.inr ⟨q, List.mem_cons_of_mem _ hq, hq2, hq3⟩
      · rintro (h1 | ⟨q, hq, hq2, hq3⟩)
        · exact Or.inl (Or.inl h1)
        · rcases List.mem_cons.mp hq with rfl | hq1
          · exact Or.inl (Or.inr hq3)
          · exact Or.inr ⟨q, hq1, hq2, hq3⟩
    · rw [if_neg h]
      constructor
      · rintro (h1 | ⟨q, hq, hq2, hq3⟩)
        · exact Or.inl h1
        · exact Or.inr ⟨q, List.mem_cons_of_mem _ hq, hq2, hq3⟩
      · rintro (h1 | ⟨q, hq, hq2, hq3⟩)
        · exact Or.inl h1
        · rcases List.mem_cons.mp hq with rfl | hq1
          · exact absurd hq2 h
          · exact Or.inr ⟨q, hq1, hq2, hq3⟩

theorem nodup_keys_val_eq {counts : List (Cell × Int)} {c : Cell}
    {n m : Int} (hnd : (counts.map Prod.fst).Nodup)
    (h1 : (c, n) ∈ counts) (h2 : (c, m) ∈ counts) : n = m := by
  induction counts with
  | nil => cases h1
  | cons p rest ih =>
    simp only [List.map_cons, List.nodup_cons, List.mem_map] at hnd
    rcases List.mem_cons.mp h1 with h1' | h1'
    · rcases List.mem_cons.mp h2 with h2' | h2'
      · rw [← h1'] at h2'; exact (Prod.mk.injEq _ _ _ _ ▸ h2').2.symm
      · exact absurd ⟨(c, m), h2', by rw [← h1']⟩ hnd.1
    · rcases List.mem_cons.mp h2 with h2' | h2'
      · exact absurd ⟨(c, n), h1', by rw [← h2']⟩ hnd.1
      · exact ih hnd.2 h1' h2'

/-- Claim C1 (confirmed): at decision time, for every cell `c` bound to
inner count `n` in the `rootsRefCounts_` map, the decision pass appends
`c`'s outgoing reference-slot addresses to `toRelease_` precisely when
`n` equals the refcount of `c`'s container; in particular a cell whose
inner count is strictly below its refcount contributes no slot.  The
hypotheses state that the map has unique keys (it is an unordered map)
and that slot addresses of distinct cells are distinct memory locations
not already queued. -/
theorem gcDecide_releases_iff_inner_eq_refcount
    (refCount : Cell → Int) (slots : Cell → List Slot)
    (counts : List (Cell × Int)) (toRelease : List Slot)
    (hnd : (counts.map Prod.fst).Nodup)
    (hdisj : ∀ p ∈ counts, ∀ q ∈ counts, p.1 ≠ q.1 →
      ∀ sl ∈ slots p.1, sl ∉ slots q.1)
    (hold : ∀ p ∈ counts, ∀ sl ∈ slots p.1, sl ∉ toRelease)
    (c : Cell) (n : Int) (hc : (c, n) ∈ counts)
    (sl : Slot) (hsl : sl ∈ slots c) :
    sl ∈ gcDecide refCount slots counts toRelease ↔ n = refCount c := by
  rw [mem_gcDecide]
  constructor
  · rintro (h1 | ⟨⟨q1, q2⟩, hq, hq2, hq3⟩)
    · exact absurd h1 (hold (c, n) hc sl hsl)
    · by_cases hqc : q1 = c
      · subst hqc
        rw [nodup_keys_val_eq hnd hc hq]
        exact hq2
      · exact absurd hq3
          (hdisj (c, n) hc (q1, q2) hq (fun h => hqc h.symm) sl hsl)
  · intro h
    exact Or.inr ⟨(c, n), hc, h, hsl⟩

/-- Witness for C1 at a concrete decision state: in the map
`[(0, 1), (1, 2)]` with refcounts `0 ↦ 1, 1 ↦ 5`, slot `10` of cell `0`
is enqueued because its inner count `1` equals its refcount. -/
theorem gcDecide_releases_iff_inner_eq_refcount_witness :
    10 ∈ gcDecide (fun c => if c = 0 then 1 else 5)
        (fun c => [10 * c + 10, 10 * c + 11]) [(0, 1), (1, 2)] []
      ↔ (1 : Int) = (fun c : Cell => if c = 0 then 1 else 5) 0 :=
  gcDecide_releases_iff_inner_eq_refcount
    (fun c => if c = 0 then 1 else 5) (fun c => [10 * c + 10, 10 * c + 11])
    [(0, 1), (1, 2)] [] (by decide) (by decide) (by decide)
    0 1 (by decide) 10 (by decide)

/-- Claim C2 (corrected), counterexample: in the graph `0 → 1, 1 → 1`
with rootset `[0]` (both cells atomic), two reference edges point at
cell `1`, yet the mark walk of `gcProcessor` tallies `InnerCount[1] = 1`:
the self-edge of `1` is examined after `1` entered the visited set and is
skipped, so the walk does not count one increment per edge into an
already-visited atomic cell. -/
theorem markWalk_edge_tally_counterexample :
    markRoots refs2 atomic2 10 [0] [] [] = some ([1], [(1, 1)])
    ∧ edgesInto refs2 [0, 1] 1 = 2
    ∧ mapGetD [(1, 1)] 1 ≠ (edgesInto refs2 [0, 1] 1 : Int) := by
  decide

/-- Claim C2 (corrected): once a cell `c` has entered the visited set,
the remainder of the mark walk increases `InnerCount[c]` by exactly `c`'s
pending multiplicity in the work deque when `c` is atomic (and by nothing
otherwise): an edge examined after its target was visited is never pushed
and never tallied, so the walk counts edge examinations that found the
target unvisited, not all edges into the target. -/
theorem markVisit_visited_no_more_tallies
    (refs : Cell → List Cell) (atomic : Cell → Bool) :
    ∀ (fuel : Nat) (tv visited : List Cell) (counts : List (Cell × Int))
      (v1 : List Cell) (counts1 : List (Cell × Int)) (c : Cell),
      markVisit refs atomic fuel tv visited counts = some (v1, counts1) →
      c ∈ visited →
      mapGetD counts1 c
        = mapGetD counts c + (if atomic c then (tv.count c : Int) else 0) := by
  intro fuel
  induction fuel with
  | zero =>
    intro tv visited counts v1 counts1 c hrun hc
    cases tv with
    | nil =>
      simp only [markVisit, Option.some.injEq, Prod.mk.injEq] at hrun
      obtain ⟨rfl, rfl⟩ := hrun
      simp
    | cons o rest => simp [markVisit] at hrun
  | succ fuel ih =>
    intro tv visited counts v1 counts1 c hrun hc
    cases tv with
    | nil =>
      simp only [markVisit, Option.some.injEq, Prod.mk.injEq] at hrun
      obtain ⟨rfl, rfl⟩ := hrun
      simp
    | cons obj rest =>
      simp only [markVisit] at hrun
      have hc1 : c ∈ visited.insert obj := List.mem_insert_iff.mpr (Or.inr hc)
      have hmain := ih _ _ _ _ _ c hrun hc1
      have hcp : c ∉ (refs obj).filter
          (fun r => decide (r ∉ visited.insert obj)) := by
        intro hmem
        have hdec := List.of_mem_filter hmem
        simp only [decide_eq_true_eq] at hdec
        exact hdec hc1
      have hcount0 : ((refs obj).filter
          (fun r => decide (r ∉ visited.insert obj))).count c = 0 :=
        List.count_eq_zero.mpr hcp
      rw [hmain, List.count_append, hcount0]
      by_cases ho : obj = c
      · subst ho
        by_cases ha : atomic obj
        · simp only [ha, if_true, mapGetD_add_self, List.count_cons_self,
            Nat.add_zero, Nat.cast_add, Nat.cast_one]
          omega
        · simp [ha]
      · have hoc : c ≠ obj := fun h => ho h.symm
        rw [List.count_cons_of_ne hoc]
        by_cases ha : atomic obj
        · rw [if_pos ha, mapGetD_add_ne _ _ hoc]
          simp
        · rw [if_neg ha]
          simp

/-- Witness for the corrected C2 statement: a deque holding cell `5`
twice with `5` already visited; the finished walk has added exactly the
pending multiplicity `2` to the (atomic) cell's count. -/
theorem markVisit_visited_no_more_tallies_witness :
    mapGetD [(5, 2)] 5
      = mapGetD [] 5
        + (if atomicW2 5 then (([5, 5] : List Cell).count 5 : Int) else 0) :=
  markVisit_visited_no_more_tallies refsW2 atomicW2 3 [5, 5] [5] []
    [5] [(5, 2)] 5 (by decide) (by decide)

/-- Claim C3 (corrected), counterexample: with tick delta `12 > 10` and
the wallclock advanced by exactly `10000` microseconds (ten milliseconds,
satisfying "at least 10 ms"), `checkIfShallCollect` does not trigger,
because the code requires strictly more than `10000`; and with a negative
wrapped delta (not `> 10`) and ample wallclock advance it does trigger.
Both outcomes contradict "precisely when the delta exceeds 10 and the
wallclock has advanced by at least 10 ms". -/
theorem checkIfShallCollect_boundary_counterexample :
    ((checkIfShallCollect 10000 sC3a).1 = false
      ∧ toInt32 (toInt32 (sC3a.currentTick + 1) - sC3a.lastTick) > 10
      ∧ 10000 - sC3a.lastTimestampUs ≥ 10000)
    ∧ ((checkIfShallCollect 20000 sC3b).1 = true
      ∧ ¬ toInt32 (toInt32 (sC3b.currentTick + 1) - sC3b.lastTick) > 10
      ∧ 20000 - sC3b.lastTimestampUs ≥ 10000) := by
  decide

/-- Claim C3 (corrected): when the collect flag is not already set, the
heuristic of `checkIfShallCollect` returns true (and records the flag)
precisely when the wrapped 32-bit tick delta is greater than `10` or
negative, and the monotonic clock has advanced strictly more than
`10000` microseconds since the last collection; the returned flag state
always matches the returned boolean. -/
theorem checkIfShallCollect_heuristic_iff (now : Int) (s : CState)
    (h : s.shallCollectGarbage = false) :
    ((checkIfShallCollect now s).1 = true ↔
      ((toInt32 (toInt32 (s.currentTick + 1) - s.lastTick) > 10
          ∨ toInt32 (toInt32 (s.currentTick + 1) - s.lastTick) < 0)
        ∧ now - s.lastTimestampUs > 10000))
    ∧ (checkIfShallCollect now s).2.shallCollectGarbage
        = (checkIfShallCollect now s).1 :=
  checkIfShallCollect_heuristic_core now s h

/-- Witness for the corrected C3 statement at a concrete state: delta is
`101` and the clock advanced `20000` microseconds, so the heuristic
fires and the flag is recorded. -/
theorem checkIfShallCollect_heuristic_iff_witness :
    ((checkIfShallCollect 20000 sC3w).1 = true ↔
      ((toInt32 (toInt32 (sC3w.currentTick + 1) - sC3w.lastTick) > 10
          ∨ toInt32 (toInt32 (sC3w.currentTick + 1) - sC3w.lastTick) < 0)
        ∧ 20000 - sC3w.lastTimestampUs > 10000))
    ∧ (checkIfShallCollect 20000 sC3w).2.shallCollectGarbage
        = (checkIfShallCollect 20000 sC3w).1 :=
  checkIfShallCollect_heuristic_iff 20000 sC3w (by decide)

/-- Claim C10 (confirmed): when the wrapped 32-bit delta between the
incremented tick and the last-collection tick is negative — the
wrap-around case, in which the delta is certainly not greater than 10 —
`checkIfShallCollect` behaves exactly as in the `delta > 10` case
provided the wallclock advanced more than 10000 microseconds: it sets the
collect flag and returns true. -/
theorem checkIfShallCollect_wraparound_triggers (now : Int) (s : CState)
    (h1 : s.shallCollectGarbage = false)
    (h2 : toInt32 (toInt32 (s.currentTick + 1) - s.lastTick) < 0)
    (h3 : now - s.lastTimestampUs > 10000) :
    (checkIfShallCollect now s).1 = true
    ∧ (checkIfShallCollect now s).2.shallCollectGarbage = true
    ∧ ¬ toInt32 (toInt32 (s.currentTick + 1) - s.lastTick) > 10 := by
  obtain ⟨hiff, hflag⟩ := checkIfShallCollect_heuristic_core now s h1
  have hfst : (checkIfShallCollect now s).1 = true :=
    hiff.mpr ⟨Or.inr h2, h3⟩
  exact ⟨hfst, by rw [hflag, hfst], by omega⟩

/-- Witness for C10: after 2147483647 ticks the counter wraps, the delta
of the next tick is the negative value `-2147483641`, and with the clock
20000 microseconds past the last collection the heuristic still fires. -/
theorem checkIfShallCollect_wraparound_triggers_witness :
    (checkIfShallCollect 20000 sC10w).1 = true
    ∧ (checkIfShallCollect 20000 sC10w).2.shallCollectGarbage = true
    ∧ ¬ toInt32 (toInt32 (sC10w.currentTick + 1) - sC10w.lastTick) > 10 :=
  checkIfShallCollect_wraparound_triggers 20000 sC10w
    (by decide) (by decide) (by decide)

/-- Claim C4 (corrected), counterexample: with no collection running
(`gcRunning_ = 0` before and after), the public operation
`cyclicAddAtomicRoot` leaves an entry in the `rootsRefCounts_` map, so
the InnerCount map is not empty outside an active collection cycle. -/
theorem innerCount_nonempty_outside_cycle_counterexample :
    initState.gcRunning = 0 ∧ (addRoot initState 0).gcRunning = 0
    ∧ (addRoot initState 0).rootsRefCounts ≠ [] := by
  decide

/-- Claim C4 (corrected): the InnerCount map is empty immediately after a
collection cycle completes (`gcProcessor` clears it), but outside a cycle
it is not empty in general: `addRoot` deliberately prepopulates the map,
binding the new root to `0` so that stack contributions arriving before
marking are not lost. -/
theorem innerCount_after_cycle_and_addRoot (env : Env) (fuel : Nat)
    (s s1 : CState) (hrun : s.shallRunCollector = true)
    (hcyc : gcProcessorCycle env fuel s = some s1) :
    s1.rootsRefCounts = []
    ∧ ∀ (t : CState) (x : Cell),
        mapGet (addRoot t x).rootsRefCounts x = some 0 := by
  refine ⟨(gcProcessorCycle_clears env fuel hrun hcyc).2.1, ?_⟩
  intro t x
  show mapGet (mapSet t.rootsRefCounts x 0) x = some 0
  exact mapGet_set_self _ _ _

/-- Witness for the corrected C4 statement: a cycle run from a signalled
initial-like state leaves the map empty, and registering root `5`
afterwards binds it to `0`. -/
theorem innerCount_after_cycle_and_addRoot_witness :
    initState.rootsRefCounts = []
    ∧ mapGet (addRoot initState 5).rootsRefCounts 5 = some 0 :=
  ⟨(innerCount_after_cycle_and_addRoot env0 10 s4w initState (by decide)
      (by decide)).1,
   (innerCount_after_cycle_and_addRoot env0 10 s4w initState (by decide)
      (by decide)).2 initState 5⟩

/-- Claim C5 (corrected), counterexample: after `addWorker 7` followed by
`removeWorker 7`, the departed worker is still recorded in
`alreadySeenWorkers_` while `currentAliveWorkers_` has dropped to `0`, so
the contributed set's cardinality strictly exceeds the alive-worker count
until the collector's next cycle clears the set. -/
theorem contributed_exceeds_alive_counterexample :
    ((removeWorker env0 (addWorker initState 7) 7).alreadySeenWorkers.card
        : Int)
      > (removeWorker env0 (addWorker initState 7) 7).currentAliveWorkers := by
  decide

/-- Claim C5 (corrected): along any well-formed trace of public
operations — fresh `addWorker`s, rendezvous only by currently registered
workers, and no `removeWorker` — the cardinality of the contributed set
never exceeds the alive-worker count, and the set is cleared at the start
of every collection cycle.  (`removeWorker` breaks the bound, as the
counterexample shows.) -/
theorem contributed_card_le_alive_of_goodTrace (env : Env) (fuel : Nat)
    (ops : List COp) (s : CState) (R : Finset Worker)
    (h : runGood env fuel (initState, ∅) ops = some (s, R)) :
    ((s.alreadySeenWorkers.card : Int) ≤ s.currentAliveWorkers)
    ∧ ∀ (t t1 : CState), t.shallRunCollector = true →
        gcProcessorCycle env fuel t = some t1 →
        t1.alreadySeenWorkers = ∅ := by
  have hinv : WInv (s, R) :=
    runGood_winv env fuel ops (initState, ∅) (s, R)
      ⟨Finset.empty_subset _, by decide⟩ h
  obtain ⟨hsub, hcard⟩ := hinv
  refine ⟨?_, ?_⟩
  · calc ((s.alreadySeenWorkers.card : Int))
        ≤ (R.card : Int) := by exact_mod_cast Finset.card_le_card hsub
      _ = s.currentAliveWorkers := hcard.symm
  · intro t t1 ht hcyc
    exact (gcProcessorCycle_clears env fuel ht hcyc).1

/-- Witness for the corrected C5 statement: after the well-formed trace
`[addWorker 3]` the contributed set (empty) is within the alive count
(one), and a signalled cycle leaves the contributed set empty. -/
theorem contributed_card_le_alive_of_goodTrace_witness :
    ((s5w.alreadySeenWorkers.card : Int) ≤ s5w.currentAliveWorkers)
    ∧ initState.alreadySeenWorkers = ∅ :=
  ⟨(contributed_card_le_alive_of_goodTrace env0 10 [COp.addWorker 3] s5w
      {3} (by decide)).1,
   (contributed_card_le_alive_of_goodTrace env0 10 [COp.addWorker 3] s5w
      {3} (by decide)).2 s4w initState (by decide) (by decide)⟩

/-- Claim C6 (confirmed): `removeWorker` sets the collect-requested flag,
performs a rendezvous contribution on behalf of the departing worker (so
when that worker was the last missing contributor the collector is
signalled), and only afterwards decrements the alive-worker count. -/
theorem removeWorker_final_rendezvous (env : Env) (s : CState) (w : Worker)
    (h1 : w ∉ s.alreadySeenWorkers)
    (h2 : (s.alreadySeenWorkers.card : Int) + 1 = s.currentAliveWorkers) :
    (removeWorker env s w).shallCollectGarbage = true
    ∧ w ∈ (removeWorker env s w).alreadySeenWorkers
    ∧ (removeWorker env s w).currentAliveWorkers
        = s.currentAliveWorkers - 1
    ∧ (removeWorker env s w).shallRunCollector = true := by
  obtain ⟨m, b, hlock⟩ :=
    rendezvouzLocked_eq env { s with shallCollectGarbage := true } w
  have hrun : (rendezvouzLocked env { s with shallCollectGarbage := true }
      w).shallRunCollector = true :=
    @rendezvouzLocked_shallRun env { s with shallCollectGarbage := true }
      w h1 h2
  refine ⟨?_, ?_, ?_, ?_⟩
  · show (rendezvouzLocked env { s with shallCollectGarbage := true }
        w).shallCollectGarbage = true
    rw [hlock]
  · show w ∈ (rendezvouzLocked env { s with shallCollectGarbage := true }
        w).alreadySeenWorkers
    rw [hlock]
    exact Finset.mem_insert_self w _
  · show (rendezvouzLocked env { s with shallCollectGarbage := true }
        w).currentAliveWorkers - 1 = s.currentAliveWorkers - 1
    rw [hlock]
  · exact hrun

/-- Witness for C6: a single never-contributed worker detaches from a
one-worker registry; the flag is set, the worker is recorded, the alive
count drops to zero, and the collector is signalled. -/
theorem removeWorker_final_rendezvous_witness :
    (removeWorker env0 s6w 3).shallCollectGarbage = true
    ∧ 3 ∈ (removeWorker env0 s6w 3).alreadySeenWorkers
    ∧ (removeWorker env0 s6w 3).currentAliveWorkers
        = s6w.currentAliveWorkers - 1
    ∧ (removeWorker env0 s6w 3).shallRunCollector = true :=
  removeWorker_final_rendezvous env0 s6w 3 (by decide) (by decide)

/-- Claim C7 (corrected), counterexample: two immediate rendezvous calls
by the same worker do not leave the collector in the same state as one
call: `checkIfShallCollect` increments the shared tick counter on every
call, so the states differ in `currentTick_`. -/
theorem rendezvouz_not_idempotent_counterexample :
    rendezvouz env0 0 (rendezvouz env0 0 sC7w 1) 1
      ≠ rendezvouz env0 0 sC7w 1 := by
  decide

/-- Claim C7 (corrected): when no collection is marking and the first
rendezvous call passes the scheduler check (so it contributes), a second
immediate call by the same worker leaves every component of the collector
state unchanged — it drains an already-empty queue and finds the worker
already contributed — except that the tick counter advances once more. -/
theorem rendezvouz_twice_tick_only (env : Env) (now : Int) (s : CState)
    (w : Worker) (h1 : s.gcRunning = 0)
    (h2 : (checkIfShallCollect now s).1 = true) :
    rendezvouz env now (rendezvouz env now s w) w
      = { rendezvouz env now s w with
          currentTick := toInt32 ((rendezvouz env now s w).currentTick + 1) } := by
  obtain ⟨b, t, u, hck, hbf⟩ := checkIfShallCollect_eq now s
  obtain ⟨m, b2, hlock⟩ :=
    rendezvouzLocked_eq env (checkIfShallCollect now s).2 w
  have hfirst : rendezvouz env now s w
      = rendezvouzLocked env (checkIfShallCollect now s).2 w := by
    unfold rendezvouz
    rw [if_neg (by simp [h1])]
    dsimp only
    rw [if_pos h2]
  have hflag : (rendezvouz env now s w).shallCollectGarbage = true := by
    rw [hfirst, hlock, hck]
    exact hbf h2
  have htr : (rendezvouz env now s w).toRelease = [] := by
    rw [hfirst, hlock]
  have hseen : w ∈ (rendezvouz env now s w).alreadySeenWorkers := by
    rw [hfirst, hlock]
    exact Finset.mem_insert_self w _
  have hg : (rendezvouz env now s w).gcRunning = 0 := by
    rw [hfirst, hlock, hck]
    exact h1
  generalize hgen : rendezvouz env now s w = r at hflag htr hseen hg ⊢
  have hsecond := checkIfShallCollect_of_flag now hflag
  unfold rendezvouz
  rw [if_neg (by simp [hg])]
  dsimp only
  rw [hsecond]
  dsimp only
  exact @rendezvouzLocked_noop env
    { r with currentTick := toInt32 (r.currentTick + 1) } w htr hseen

/-- Witness for the corrected C7 statement: from a state with the collect
flag set and five alive workers, the second of two immediate rendezvous
calls by worker `1` only advances the tick. -/
theorem rendezvouz_twice_tick_only_witness :
    rendezvouz env0 0 (rendezvouz env0 0 sC7w 1) 1
      = { rendezvouz env0 0 sC7w 1 with
          currentTick := toInt32 ((rendezvouz env0 0 sC7w 1).currentTick + 1) } :=
  rendezvouz_twice_tick_only env0 0 sC7w 1 (by decide) (by decide)

/-- Claim C8 (corrected), counterexample: in the reachable state where
root `0` is already registered, `addAtomicRoot 0; removeAtomicRoot 0`
does not restore the registry: the re-registration overwrites the entry
and the removal erases it entirely. -/
theorem addRemoveRoot_not_identity_counterexample :
    removeRoot (addRoot s8 0) 0 ≠ s8 := by
  decide

/-- Claim C8 (corrected): provided `x` is not currently registered,
`addAtomicRoot x; removeAtomicRoot x` restores the registry state
exactly; when `x` is already present the pair erases its entry instead. -/
theorem addRemoveRoot_roundtrip_of_fresh (s : CState) (x : Cell)
    (h : mapGet s.rootsRefCounts x = none) :
    removeRoot (addRoot s x) x = s := by
  show { s with rootsRefCounts := mapErase (mapSet s.rootsRefCounts x 0) x }
      = s
  rw [mapErase_set_of_none 0 h]

/-- Witness for the corrected C8 statement: registering then removing the
fresh root `9` restores the initial state exactly. -/
theorem addRemoveRoot_roundtrip_of_fresh_witness :
    removeRoot (addRoot initState 9) 9 = initState :=
  addRemoveRoot_roundtrip_of_fresh initState 9 rfl

/-- Claim C9 (corrected), counterexample: double-registering an atomic
root is not asserted fatal — the second `cyclicAddAtomicRoot` succeeds
and silently resets the inner-count entry to `0` — and a rendezvous by a
worker that was never added also succeeds. -/
theorem double_register_not_fatal_counterexample :
    cyclicAddAtomicRoot (addRoot initState 0) 0
      = Except.ok (addRoot (addRoot initState 0) 0)
    ∧ (addRoot (addRoot initState 0) 0).rootsRefCounts = [(0, 0)]
    ∧ cyclicRendezvouz env0 0 initState 3
      = Except.ok (rendezvouz env0 0 initState 3) := by
  exact ⟨rfl, by decide, rfl⟩

/-- Claim C9 (corrected): of the programmer errors listed in the spec,
only the `init`/`shutdown` pairing is guarded by `RuntimeAssert`
(`cyclicInit` on an inited collector and `cyclicDeinit` on an uninited
one fail); double-registering a root succeeds, unregistering an unknown
root is a silent no-op, and rendezvous before `addWorker` is accepted. -/
theorem assertions_only_init_deinit :
    (∀ s : CState, cyclicInit (some s) = Except.error "Must be not yet inited")
    ∧ cyclicDeinit (none : Option CState) = Except.error "Must be inited"
    ∧ (∀ (s : CState) (x : Cell),
        cyclicAddAtomicRoot s x = Except.ok (addRoot s x))
    ∧ (∀ (s : CState) (x : Cell), mapGet s.rootsRefCounts x = none →
        cyclicRemoveAtomicRoot s x = Except.ok s)
    ∧ (∀ (env : Env) (now : Int) (s : CState) (w : Worker),
        cyclicRendezvouz env now s w = Except.ok (rendezvouz env now s w)) := by
  refine ⟨fun s => rfl, rfl, fun s x => rfl, ?_, fun env now s w => rfl⟩
  intro s x h
  have hrm : removeRoot s x = s := by
    show { s with rootsRefCounts := mapErase s.rootsRefCounts x } = s
    rw [mapErase_of_none h]
  show Except.ok (removeRoot s x) = Except.ok s
  rw [hrm]

/-- Witness for the corrected C9 statement: removing the unregistered
root `4` from the initial state is accepted and changes nothing. -/
theorem assertions_only_init_deinit_witness :
    cyclicRemoveAtomicRoot initState 4 = Except.ok initState :=
  assertions_only_init_deinit.2.2.2.1 initState 4 rfl

end CyclicCollector
